import Mathlib

/-!
Shallow embedding of the offline asset-caching service worker of the
myPortfolio repository (the `sw.js` worker source).  Cache storage is
modelled as an association list of named caches, each cache an association
list from URLs to captured responses; the network is an environment
function from URLs to an optional response (`none` = network failure /
rejected fetch).  Every handler of the worker is translated into an
explicit state-passing function; the list of URLs each request handler
returns records the network fetches it issued.
-/

set_option maxRecDepth 100000

deriving instance DecidableEq for Except

namespace SW

/-- A parsed URL: `origin` is scheme plus host, `pathname` the path.
`new URL(request.url).pathname` in the worker corresponds to the
`pathname` field, and the string `request.url` to `href`. -/
structure Url where
  origin : String
  pathname : String
deriving DecidableEq

def Url.href (u : Url) : String := u.origin ++ u.pathname

/-- An intercepted request: HTTP method and URL. -/
structure Request where
  method : String
  url : Url
deriving DecidableEq

/-- A captured response: the `ok` status flag the worker inspects, the body
snapshot, and the response headers. -/
structure Response where
  ok : Bool
  body : String
  headers : List (String × String)
deriving DecidableEq

/-- One named cache: an association list from request URL to stored response. -/
abbrev Cache := List (Url × Response)

/-- The cache storage: named caches in creation order. -/
abbrev CacheStorage := List (String × Cache)

def emptyStorage : CacheStorage := []

/-- `cache.match(request)`: first stored response for the URL. -/
def cacheMatch : Cache → Url → Option Response
  | [], _ => none
  | e :: rest, u => if e.1 = u then some e.2 else cacheMatch rest u

/-- `cache.put(request, response)`: replace the entry for the URL, or append it. -/
def cachePut : Cache → Url → Response → Cache
  | [], u, r => [(u, r)]
  | e :: rest, u, r => if e.1 = u then (u, r) :: rest else e :: cachePut rest u r

def cacheKeys (c : Cache) : List Url := c.map Prod.fst

def storesFind : CacheStorage → String → Option Cache
  | [], _ => none
  | e :: rest, n => if e.1 = n then some e.2 else storesFind rest n

/-- The contents of the cache named `n` (empty if the cache does not exist). -/
def storesGet (s : CacheStorage) (n : String) : Cache := (storesFind s n).getD []

def storesSet : CacheStorage → String → Cache → CacheStorage
  | [], n, c => [(n, c)]
  | e :: rest, n, c => if e.1 = n then (n, c) :: rest else e :: storesSet rest n c

/-- `caches.open(name)`: create the named cache if it is absent. -/
def cachesOpen (s : CacheStorage) (n : String) : CacheStorage :=
  match storesFind s n with
  | some _ => s
  | none => s ++ [(n, [])]

/-- `caches.keys()`: names of all caches, in creation order. -/
def storageNames (s : CacheStorage) : List String := s.map Prod.fst

/-- The full key content of the storage: each cache name with its key list. -/
def storageKeys (s : CacheStorage) : List (String × List Url) :=
  s.map (fun e => (e.1, cacheKeys e.2))

/-- Put into a named cache (the caller has opened it). -/
def storagePut (s : CacheStorage) (n : String) (u : Url) (r : Response) : CacheStorage :=
  storesSet s n (cachePut (storesGet s n) u r)

/-- `caches.match(request)`: search every cache in creation order. -/
def cachesMatch : CacheStorage → Url → Option Response
  | [], _ => none
  | e :: rest, u =>
      match cacheMatch e.2 u with
      | some r => some r
      | none => cachesMatch rest u

/-- The network and connectivity environment: `fetch` yields `none` on a
network failure (rejected fetch) and `some r` on a response `r`, which may
or may not have `ok` status; `isOnline` is `navigator.onLine`. -/
structure Env where
  fetch : Url → Option Response
  isOnline : Bool

/-- Whether `cache.add(u)` would succeed: the fetch resolves with an `ok`
response. -/
def addOk (env : Env) (u : Url) : Bool :=
  match env.fetch u with
  | some r => r.ok
  | none => false

def CACHE_NAME : String := "mported-portfolio-v1"

def ASSET_CACHE_NAME : String := "mported-assets-v1"

def CRITICAL_ASSETS : List String :=
  [ "/",
    "/index.html",
    "/assets/constructionCalcSS.png",
    "/assets/portfolioSS.png",
    "/assets/galadeerSS.jpg",
    "/assets/severenceSS.png",
    "/assets/solitaireSS.jpg",
    "/assets/lebronSS.png",
    "/assets/IMG_3641.jpeg",
    "/assets/miguelComonfortResumePortfolio.pdf" ]

/-- The synthetic placeholder returned for failed image requests: a fresh
`Response` with default 200 status (`ok` true), SVG body and the two headers
set by the worker. -/
def placeholderResponse : Response :=
  { ok := true,
    body := "<svg width=\"400\" height=\"300\" xmlns=\"http://www.w3.org/2000/svg\"><rect width=\"100%\" height=\"100%\" fill=\"#ddd\"/><text x=\"50%\" y=\"50%\" font-family=\"Arial\" font-size=\"18\" fill=\"#999\" text-anchor=\"middle\" dy=\".3em\">Image Unavailable</text></svg>",
    headers := [("Content-Type", "image/svg+xml"), ("Cache-Control", "no-cache")] }

/-- Body of the synthetic offline page (the inline style braces are the
characters `\x7b` and `\x7d`). -/
def offlineBody : String :=
  "<!DOCTYPE html>\n<html>\n<head>\n<title>Portfolio - Offline</title>\n" ++
  "<meta charset=\"utf-8\">\n<meta name=\"viewport\" content=\"width=device-width, initial-scale=1\">\n" ++
  "<style>\nbody \x7b font-family: Arial, sans-serif; text-align: center; padding: 50px; background: #f0f0f0; \x7d\n" ++
  ".offline \x7b background: #fff; padding: 30px; border-radius: 10px; max-width: 500px; margin: 0 auto; box-shadow: 0 2px 10px rgba(0,0,0,0.1); \x7d\n" ++
  "h1 \x7b color: #333; margin-bottom: 20px; \x7d\np \x7b color: #666; line-height: 1.6; \x7d\n" ++
  "button \x7b background: #007bff; color: white; border: none; padding: 10px 20px; border-radius: 5px; cursor: pointer; \x7d\n</style>\n" ++
  "</head>\n<body>\n<div class=\"offline\">\n<h1>You\x27re Offline</h1>\n" ++
  "<p>The portfolio is temporarily unavailable. Please check your internet connection and try again.</p>\n" ++
  "<button onclick=\"window.location.reload()\">Retry</button>\n</div>\n</body>\n</html>"

/-- The synthetic offline page returned for the root document when both the
network and the cache fail. -/
def offlineResponse : Response :=
  { ok := true,
    body := offlineBody,
    headers := [("Content-Type", "text/html"), ("Cache-Control", "no-cache")] }

/-- `str.startsWith(pat)` of JavaScript, computed on the character list. -/
def strStartsWith (s pat : String) : Bool := pat.data.isPrefixOf s.data

/-- `str.endsWith(pat)` of JavaScript, computed on the character list. -/
def strEndsWith (s pat : String) : Bool := pat.data.isSuffixOf s.data

/-- Whether `pat` occurs as a contiguous sublist of the character list. -/
def containsSub (pat : List Char) : List Char → Bool
  | [] => pat.isEmpty
  | c :: rest => pat.isPrefixOf (c :: rest) || containsSub pat rest

/-- `str.includes(pat)` of JavaScript, computed on the character list. -/
def strIncludes (s pat : String) : Bool := containsSub pat.data s.data

/-- Lower-casing, computed on the character list. -/
def strToLower (s : String) : String := String.mk (s.data.map Char.toLower)

/-- The worker's image test `request.url.match(/\.(jpg|jpeg|png|gif|webp)$/i)`. -/
def isImageUrl (s : String) : Bool :=
  let l := strToLower s
  strEndsWith l ".jpg" || strEndsWith l ".jpeg" || strEndsWith l ".png" ||
    strEndsWith l ".gif" || strEndsWith l ".webp"

/-- `handleAssetRequest`: cache-first with network fallback.  Returns the
result (`Except.error` = the handler re-throws), the cache storage after the
call, and the list of network fetches issued. -/
def handleAssetRequest (env : Env) (s : CacheStorage) (r : Request) :
    Except String Response × CacheStorage × List Url :=
  match cachesMatch s r.url with
  | some cached => (Except.ok cached, s, [])
  | none =>
      match env.fetch r.url with
      | some networkResponse =>
          if networkResponse.ok then
            (Except.ok networkResponse,
             storagePut (cachesOpen s ASSET_CACHE_NAME) ASSET_CACHE_NAME r.url networkResponse,
             [r.url])
          else
            (Except.ok networkResponse, s, [r.url])
      | none =>
          if isImageUrl r.url.href then
            (Except.ok placeholderResponse, s, [r.url])
          else
            (Except.error "asset request failed", s, [r.url])

/-- The worker's root-document test on the fallback path:
`request.url.endsWith('/') || request.url.includes('index.html')`. -/
def isRootDocumentUrl (r : Request) : Bool :=
  strEndsWith r.url.href "/" || strIncludes r.url.href "index.html"

/-- `handleAppRequest`: network-first with cache fallback, then the synthetic
offline page for root-document URLs, then re-throw. -/
def handleAppRequest (env : Env) (s : CacheStorage) (r : Request) :
    Except String Response × CacheStorage × List Url :=
  match env.fetch r.url with
  | some networkResponse =>
      if networkResponse.ok then
        (Except.ok networkResponse,
         storagePut (cachesOpen s CACHE_NAME) CACHE_NAME r.url networkResponse,
         [r.url])
      else
        (Except.ok networkResponse, s, [r.url])
  | none =>
      match cachesMatch s r.url with
      | some cached => (Except.ok cached, s, [r.url])
      | none =>
          if isRootDocumentUrl r then
            (Except.ok offlineResponse, s, [r.url])
          else
            (Except.error "app request failed", s, [r.url])

/-- How the fetch listener classifies an intercepted request. -/
inductive RouteDecision where
  | asset
  | app
  | passThrough
deriving DecidableEq

/-- The classification performed by the fetch listener: asset paths first,
then any GET request, otherwise no `respondWith` call at all. -/
def route (r : Request) : RouteDecision :=
  if strStartsWith r.url.pathname "/assets/" then RouteDecision.asset
  else if r.method = "GET" then RouteDecision.app
  else RouteDecision.passThrough

/-- The fetch listener: `none` in the first component means the event was
not intercepted and falls through to default browser handling. -/
def handleFetch (env : Env) (s : CacheStorage) (r : Request) :
    Option (Except String Response) × CacheStorage × List Url :=
  if strStartsWith r.url.pathname "/assets/" then
    let t := handleAssetRequest env s r
    (some t.1, t.2)
  else if r.method = "GET" then
    let t := handleAppRequest env s r
    (some t.1, t.2)
  else (none, s, [])

/-- `cache.add` for one URL: fetch, reject on failure or non-`ok` response,
otherwise put. -/
def cacheAdd (env : Env) (c : Cache) (u : Url) : Except String Cache :=
  match env.fetch u with
  | some r => if r.ok then Except.ok (cachePut c u r) else Except.error "response not ok"
  | none => Except.error "network error"

/-- Fetch every URL of the list, requiring each response to be `ok`
(`cache.addAll` rejects if any fetch fails or yields a non-`ok` response). -/
def fetchAllOk (env : Env) : List Url → Option (List (Url × Response))
  | [] => some []
  | u :: rest =>
      match env.fetch u with
      | some r =>
          if r.ok then
            match fetchAllOk env rest with
            | some es => some ((u, r) :: es)
            | none => none
          else none
      | none => none

/-- `cache.addAll(urls)`: all-or-nothing batch add. -/
def cacheAddAll (env : Env) (c : Cache) (us : List Url) : Except String Cache :=
  match fetchAllOk env us with
  | some entries => Except.ok (entries.foldl (fun acc e => cachePut acc e.1 e.2) c)
  | none => Except.error "addAll failed"

/-- One isolated critical-asset addition of the install step:
`cache.add(asset).catch(err => console.warn(...))` against the asset cache. -/
def installAssetStep (env : Env) (origin : String) (s : CacheStorage) (asset : String) :
    CacheStorage :=
  match cacheAdd env (storesGet s ASSET_CACHE_NAME) (Url.mk origin asset) with
  | Except.ok c => storesSet s ASSET_CACHE_NAME c
  | Except.error _ => s

def seedList (env : Env) (origin : String) (s : CacheStorage) (paths : List String) :
    CacheStorage :=
  paths.foldl (installAssetStep env origin) s

/-- The install step: open the shell cache and run `addAll(['/'])` on it
(not isolated, so its outcome decides the outcome `event.waitUntil`
observes), then open the asset cache and add every critical asset with a
per-asset catch. -/
def install (env : Env) (origin : String) (s : CacheStorage) :
    Except String Unit × CacheStorage :=
  match cacheAddAll env (storesGet (cachesOpen s CACHE_NAME) CACHE_NAME) [Url.mk origin "/"] with
  | Except.ok c =>
      (Except.ok (),
        seedList env origin
          (cachesOpen (storesSet (cachesOpen s CACHE_NAME) CACHE_NAME c) ASSET_CACHE_NAME)
          CRITICAL_ASSETS)
  | Except.error e =>
      (Except.error e,
        seedList env origin (cachesOpen (cachesOpen s CACHE_NAME) ASSET_CACHE_NAME)
          CRITICAL_ASSETS)

/-- The activate step: enumerate all cache names and delete every cache
whose name is neither `CACHE_NAME` nor `ASSET_CACHE_NAME`. -/
def activate (s : CacheStorage) : CacheStorage :=
  s.filter (fun e => e.1 == CACHE_NAME || e.1 == ASSET_CACHE_NAME)

/-- One step of the retry sweep: skip assets already cached, otherwise fetch
and put only an `ok` response, swallowing fetch failures. -/
def retryStep (env : Env) (origin : String) (s : CacheStorage) (asset : String) :
    CacheStorage :=
  match cacheMatch (storesGet s ASSET_CACHE_NAME) (Url.mk origin asset) with
  | some _ => s
  | none =>
      match env.fetch (Url.mk origin asset) with
      | some response =>
          if response.ok then
            storagePut s ASSET_CACHE_NAME (Url.mk origin asset) response
          else s
      | none => s

/-- `retryFailedAssets`: for each critical asset missing from the asset
cache, attempt one fetch and store it on success. -/
def retryFailedAssets (env : Env) (origin : String) (s : CacheStorage) : CacheStorage :=
  CRITICAL_ASSETS.foldl (retryStep env origin) (cachesOpen s ASSET_CACHE_NAME)

/-- `cacheAsset(url)` of the message handler: open the asset cache and
`cache.add(url)` inside a try/catch that only logs failures. -/
def cacheAsset (env : Env) (origin : String) (s : CacheStorage) (url : String) :
    CacheStorage :=
  let s1 := cachesOpen s ASSET_CACHE_NAME
  match cacheAdd env (storesGet s1 ASSET_CACHE_NAME) (Url.mk origin url) with
  | Except.ok c => storesSet s1 ASSET_CACHE_NAME c
  | Except.error _ => s1

/-- `clearCache()`: enumerate and delete every cache. -/
def clearCache (_s : CacheStorage) : CacheStorage := []

/-- The snapshot computed by `getCacheStatus()`. -/
structure CacheStatus where
  totalAssets : Nat
  cachedAssets : Nat
  assets : List String
  isOnline : Bool
deriving DecidableEq

/-- `getCacheStatus()`: open the asset cache and report its key count. -/
def getCacheStatus (env : Env) (s : CacheStorage) : CacheStatus × CacheStorage :=
  let s1 := cachesOpen s ASSET_CACHE_NAME
  let ks := cacheKeys (storesGet s1 ASSET_CACHE_NAME)
  ({ totalAssets := CRITICAL_ASSETS.length,
     cachedAssets := ks.length,
     assets := ks.map Url.href,
     isOnline := env.isOnline }, s1)

/-- A control message posted by the page: the `type` tag and, when present,
`payload.url` (`none` models a message with no payload object). -/
structure ControlMessage where
  type : String
  payloadUrl : Option String
deriving DecidableEq

/-- The message listener.  `ports` is the number of transferred message
ports; the second result component is the storage after handling, the first
is `Except.error` when an uncaught exception escapes the handler, and
carries the `CACHE_STATUS` reply posted on `ports[0]` when there is one. -/
def handleMessage (env : Env) (origin : String) (s : CacheStorage)
    (msg : ControlMessage) (ports : Nat) :
    Except String (Option CacheStatus) × CacheStorage :=
  if msg.type = "CACHE_ASSET" then
    match msg.payloadUrl with
    | some url => (Except.ok none, cacheAsset env origin s url)
    | none => (Except.error "TypeError: payload is undefined", s)
  else if msg.type = "CLEAR_CACHE" then
    (Except.ok none, clearCache s)
  else if msg.type = "GET_CACHE_STATUS" then
    let t := getCacheStatus env s
    if ports = 0 then
      (Except.error "TypeError: no reply port", t.2)
    else (Except.ok (some t.1), t.2)
  else (Except.ok none, s)

/-- Keys currently stored in the asset cache. -/
def assetKeys (s : CacheStorage) : List Url := cacheKeys (storesGet s ASSET_CACHE_NAME)

/-- Every entry of `t` is an entry of `s` or carries an `ok` response:
`t` was produced from `s` writing only successful responses. -/
def okWritesOnly (s t : CacheStorage) : Prop :=
  ∀ n u r, (u, r) ∈ storesGet t n → (u, r) ∈ storesGet s n ∨ r.ok = true

/-- Origin used by the concrete witness scenarios. -/
def demoOrigin : String := "https://mported.dev"

def okResp : Response := { ok := true, body := "ok", headers := [] }

def badResp : Response := { ok := false, body := "bad", headers := [] }

/-- A network where every fetch resolves successfully. -/
def envAllOk : Env := { fetch := fun _ => some okResp, isOnline := true }

/-- A network where every fetch rejects. -/
def envDown : Env := { fetch := fun _ => none, isOnline := false }

/-- A network where exactly the root document fails to fetch and every other
URL resolves successfully. -/
def envRootFail : Env :=
  { fetch := fun u => if u.pathname = "/" then none else some okResp, isOnline := true }

/-- A cache storage holding one prior-version cache next to the two current
caches, as found at activation time after a version bump. -/
def demoOldStorage : CacheStorage :=
  [("mported-portfolio-v0", []), (CACHE_NAME, []), (ASSET_CACHE_NAME, [])]

theorem cacheKeys_cons (e : Url × Response) (c : Cache) :
    cacheKeys (e :: c) = e.1 :: cacheKeys c := rfl

theorem cachePut_keys_of_mem {c : Cache} {u : Url} (r : Response) (h : u ∈ cacheKeys c) :
    cacheKeys (cachePut c u r) = cacheKeys c := by
  induction c with
  | nil => simp [cacheKeys] at h
  | cons e rest ih =>
      by_cases he : e.1 = u
      · simp [cachePut, he, cacheKeys_cons]
      · rw [cacheKeys_cons] at h
        rcases List.mem_cons.mp h with h1 | h2
        · exact absurd h1.symm he
        · simp [cachePut, he, cacheKeys_cons, ih h2]

theorem cachePut_keys_of_not_mem {c : Cache} {u : Url} (r : Response)
    (h : u ∉ cacheKeys c) :
    cacheKeys (cachePut c u r) = cacheKeys c ++ [u] := by
  induction c with
  | nil => simp [cachePut, cacheKeys]
  | cons e rest ih =>
      rw [cacheKeys_cons] at h
      have he : e.1 ≠ u := fun hh => h (List.mem_cons.mpr (Or.inl hh.symm))
      have hrest : u ∉ cacheKeys rest := fun hh => h (List.mem_cons.mpr (Or.inr hh))
      simp [cachePut, he, cacheKeys_cons, ih hrest]

theorem mem_cacheKeys_cachePut_self (c : Cache) (u : Url) (r : Response) :
    u ∈ cacheKeys (cachePut c u r) := by
  induction c with
  | nil => simp [cachePut, cacheKeys]
  | cons e rest ih =>
      by_cases he : e.1 = u
      · simp [cachePut, he, cacheKeys_cons]
      · simp only [cachePut, if_neg he, cacheKeys_cons]
        exact List.mem_cons.mpr (Or.inr ih)

theorem mem_cacheKeys_cachePut_of_mem {c : Cache} {v : Url} (u : Url) (r : Response)
    (h : v ∈ cacheKeys c) : v ∈ cacheKeys (cachePut c u r) := by
  induction c with
  | nil => simp [cacheKeys] at h
  | cons e rest ih =>
      by_cases he : e.1 = u
      · rw [cacheKeys_cons] at h
        rcases List.mem_cons.mp h with h1 | h2
        · simp [cachePut, he, cacheKeys_cons, h1, he ▸ h1]
        · simp only [cachePut, if_pos he, cacheKeys_cons]
          exact List.mem_cons.mpr (Or.inr h2)
      · rw [cacheKeys_cons] at h
        simp only [cachePut, if_neg he, cacheKeys_cons]
        rcases List.mem_cons.mp h with h1 | h2
        · exact List.mem_cons.mpr (Or.inl h1)
        · exact List.mem_cons.mpr (Or.inr (ih h2))

theorem mem_of_mem_cachePut {c : Cache} {u : Url} {r : Response} {e : Url × Response}
    (h : e ∈ cachePut c u r) : e ∈ c ∨ e = (u, r) := by
  induction c with
  | nil => simp [cachePut] at h; exact Or.inr h
  | cons f rest ih =>
      by_cases hf : f.1 = u
      · simp only [cachePut, if_pos hf] at h
        rcases List.mem_cons.mp h with h1 | h2
        · exact Or.inr h1
        · exact Or.inl (List.mem_cons.mpr (Or.inr h2))
      · simp only [cachePut, if_neg hf] at h
        rcases List.mem_cons.mp h with h1 | h2
        · exact Or.inl (List.mem_cons.mpr (Or.inl h1))
        · rcases ih h2 with h3 | h3
          · exact Or.inl (List.mem_cons.mpr (Or.inr h3))
          · exact Or.inr h3

theorem cacheMatch_isSome_iff {c : Cache} {u : Url} :
    (cacheMatch c u).isSome = true ↔ u ∈ cacheKeys c := by
  induction c with
  | nil => simp [cacheMatch, cacheKeys]
  | cons e rest ih =>
      by_cases he : e.1 = u
      · simp [cacheMatch, he, cacheKeys_cons]
      · simp only [cacheMatch, if_neg he, cacheKeys_cons]
        rw [ih]
        constructor
        · exact fun h => List.mem_cons.mpr (Or.inr h)
        · intro h
          rcases List.mem_cons.mp h with h1 | h2
          · exact absurd h1.symm he
          · exact h2

theorem storesFind_isSome_iff {s : CacheStorage} {n : String} :
    (storesFind s n).isSome = true ↔ n ∈ storageNames s := by
  induction s with
  | nil => simp [storesFind, storageNames]
  | cons e rest ih =>
      by_cases he : e.1 = n
      · simp [storesFind, he, storageNames]
      · simp only [storesFind, if_neg he, storageNames, List.map_cons]
        rw [ih]
        constructor
        · exact fun h => List.mem_cons.mpr (Or.inr h)
        · intro h
          rcases List.mem_cons.mp h with h1 | h2
          · exact absurd h1.symm he
          · exact h2

theorem storesFind_eq_none_of_not_mem {s : CacheStorage} {n : String}
    (h : n ∉ storageNames s) : storesFind s n = none := by
  rcases hf : storesFind s n with _ | c
  · rfl
  · exact absurd (storesFind_isSome_iff.mp (by rw [hf]; rfl)) h

theorem cachesOpen_of_mem {s : CacheStorage} {n : String} (h : n ∈ storageNames s) :
    cachesOpen s n = s := by
  rcases hf : storesFind s n with _ | c
  · exact absurd (storesFind_isSome_iff.mpr h) (by rw [hf]; simp)
  · simp [cachesOpen, hf]

theorem storesGet_append_open (s : CacheStorage) (n m : String) :
    storesGet (s ++ [(n, [])]) m = storesGet s m := by
  induction s with
  | nil =>
      by_cases hnm : n = m
      · simp [storesGet, storesFind, hnm]
      · simp [storesGet, storesFind, hnm]
  | cons e rest ih =>
      by_cases he : e.1 = m
      · simp [storesGet, storesFind, he]
      · simp only [storesGet, List.cons_append, storesFind, if_neg he] at ih ⊢
        exact ih

theorem storesGet_cachesOpen (s : CacheStorage) (n m : String) :
    storesGet (cachesOpen s n) m = storesGet s m := by
  rcases hf : storesFind s n with _ | c
  · simp only [cachesOpen, hf]
    exact storesGet_append_open s n m
  · simp [cachesOpen, hf]

theorem storageNames_cachesOpen_of_not_mem {s : CacheStorage} {n : String}
    (h : n ∉ storageNames s) :
    storageNames (cachesOpen s n) = storageNames s ++ [n] := by
  simp [cachesOpen, storesFind_eq_none_of_not_mem h, storageNames]

theorem storesFind_storesSet_self (s : CacheStorage) (n : String) (c : Cache) :
    storesFind (storesSet s n c) n = some c := by
  induction s with
  | nil => simp [storesSet, storesFind]
  | cons e rest ih =>
      by_cases he : e.1 = n
      · simp [storesSet, he, storesFind]
      · simp [storesSet, he, storesFind, ih]

theorem storesFind_storesSet_other {m n : String} (s : CacheStorage) (c : Cache)
    (h : m ≠ n) : storesFind (storesSet s n c) m = storesFind s m := by
  induction s with
  | nil =>
      simp only [storesSet, storesFind]
      rw [if_neg (fun hh : n = m => h hh.symm)]
  | cons e rest ih =>
      by_cases he : e.1 = n
      · simp only [storesSet, if_pos he, storesFind]
        rw [if_neg (fun hh : n = m => h hh.symm), if_neg (fun hh : e.1 = m => h (he.symm.trans hh).symm)]
      · simp only [storesSet, if_neg he, storesFind]
        by_cases hem : e.1 = m
        · simp [hem]
        · simp [hem, ih]

theorem storesGet_storesSet_self (s : CacheStorage) (n : String) (c : Cache) :
    storesGet (storesSet s n c) n = c := by
  simp [storesGet, storesFind_storesSet_self]

theorem storesGet_storesSet_other {m n : String} (s : CacheStorage) (c : Cache)
    (h : m ≠ n) : storesGet (storesSet s n c) m = storesGet s m := by
  simp [storesGet, storesFind_storesSet_other s c h]

theorem mem_storageNames_storesSet {s : CacheStorage} {m : String} (n : String) (c : Cache)
    (h : m ∈ storageNames s) : m ∈ storageNames (storesSet s n c) := by
  induction s with
  | nil => simp [storageNames] at h
  | cons e rest ih =>
      by_cases he : e.1 = n
      · simp only [storesSet, if_pos he, storageNames, List.map_cons] at h ⊢
        rcases List.mem_cons.mp h with h1 | h2
        · exact List.mem_cons.mpr (Or.inl (he ▸ h1))
        · exact List.mem_cons.mpr (Or.inr h2)
      · simp only [storesSet, if_neg he, storageNames, List.map_cons] at h ⊢
        rcases List.mem_cons.mp h with h1 | h2
        · exact List.mem_cons.mpr (Or.inl h1)
        · exact List.mem_cons.mpr (Or.inr (ih h2))

theorem storesSet_storesGet_self {s : CacheStorage} {n : String}
    (h : n ∈ storageNames s) : storesSet s n (storesGet s n) = s := by
  induction s with
  | nil => simp [storageNames] at h
  | cons e rest ih =>
      by_cases he : e.1 = n
      · have hset : storesSet (e :: rest) n (storesGet (e :: rest) n) = (n, e.2) :: rest := by
          simp [storesSet, storesGet, storesFind, he]
        rw [hset, ← he]
      · have hrest : n ∈ storageNames rest := by
          simp only [storageNames, List.map_cons] at h
          rcases List.mem_cons.mp h with h1 | h2
          · exact absurd h1.symm he
          · exact h2
        have hget : storesGet (e :: rest) n = storesGet rest n := by
          simp [storesGet, storesFind, he]
        have hset : storesSet (e :: rest) n (storesGet rest n)
            = e :: storesSet rest n (storesGet rest n) := by
          simp [storesSet, he]
        rw [hget, hset]
        exact congrArg (e :: ·) (ih hrest)

theorem storageKeys_storesSet_of_keys_eq {s : CacheStorage} {n : String} {c : Cache}
    (hn : n ∈ storageNames s) (hk : cacheKeys c = cacheKeys (storesGet s n)) :
    storageKeys (storesSet s n c) = storageKeys s := by
  induction s with
  | nil => simp [storageNames] at hn
  | cons e rest ih =>
      by_cases he : e.1 = n
      · have hk2 : cacheKeys c = cacheKeys e.2 :=
          hk.trans (by simp [storesGet, storesFind, he])
        have hset : storesSet (e :: rest) n c = (n, c) :: rest := by
          simp [storesSet, he]
        rw [hset]
        simp only [storageKeys, List.map_cons]
        rw [hk2, ← he]
      · have hrest : n ∈ storageNames rest := by
          simp only [storageNames, List.map_cons] at hn
          rcases List.mem_cons.mp hn with h1 | h2
          · exact absurd h1.symm he
          · exact h2
        have hk2 : cacheKeys c = cacheKeys (storesGet rest n) :=
          hk.trans (by simp [storesGet, storesFind, he])
        have hset : storesSet (e :: rest) n c = e :: storesSet rest n c := by
          simp [storesSet, he]
        rw [hset]
        simp only [storageKeys, List.map_cons]
        exact congrArg (fun l => (e.1, cacheKeys e.2) :: l) (ih hrest hk2)

theorem mem_names_of_mem_keys {s : CacheStorage} {n : String} {u : Url}
    (h : u ∈ cacheKeys (storesGet s n)) : n ∈ storageNames s := by
  by_contra hn
  rw [storesGet, storesFind_eq_none_of_not_mem hn] at h
  simp [cacheKeys] at h

theorem storesGet_storagePut_self (s : CacheStorage) (n : String) (u : Url) (r : Response) :
    storesGet (storagePut s n u r) n = cachePut (storesGet s n) u r :=
  storesGet_storesSet_self s n _

theorem storesGet_storagePut_other {m n : String} (s : CacheStorage) (u : Url) (r : Response)
    (h : m ≠ n) : storesGet (storagePut s n u r) m = storesGet s m :=
  storesGet_storesSet_other s _ h

theorem storageKeys_storagePut_of_mem {s : CacheStorage} {n : String} {u : Url}
    (r : Response) (h : u ∈ cacheKeys (storesGet s n)) :
    storageKeys (storagePut s n u r) = storageKeys s :=
  storageKeys_storesSet_of_keys_eq (mem_names_of_mem_keys h) (cachePut_keys_of_mem r h)

theorem installAssetStep_of_addOk {env : Env} {origin p : String} (s : CacheStorage)
    (h : addOk env (Url.mk origin p) = true) :
    ∃ r, env.fetch (Url.mk origin p) = some r ∧ r.ok = true ∧
      installAssetStep env origin s p
        = storagePut s ASSET_CACHE_NAME (Url.mk origin p) r := by
  unfold addOk at h
  rcases hf : env.fetch (Url.mk origin p) with _ | r
  · rw [hf] at h; cases h
  · rw [hf] at h
    have hok : r.ok = true := by simpa using h
    exact ⟨r, rfl, hok, by simp [installAssetStep, cacheAdd, hf, hok, storagePut]⟩

theorem installAssetStep_of_not_addOk {env : Env} {origin p : String} (s : CacheStorage)
    (h : addOk env (Url.mk origin p) = false) :
    installAssetStep env origin s p = s := by
  unfold addOk at h
  rcases hf : env.fetch (Url.mk origin p) with _ | r
  · simp [installAssetStep, cacheAdd, hf]
  · rw [hf] at h
    have hok : r.ok = false := by simpa using h
    simp [installAssetStep, cacheAdd, hf, hok]

theorem mem_assetKeys_installAssetStep {env : Env} {origin : String} {s : CacheStorage}
    {v : Url} (p : String) (h : v ∈ assetKeys s) :
    v ∈ assetKeys (installAssetStep env origin s p) := by
  by_cases hok : addOk env (Url.mk origin p) = true
  · obtain ⟨r, _, _, hstep⟩ := installAssetStep_of_addOk s hok
    rw [hstep]
    unfold assetKeys at h ⊢
    rw [storesGet_storagePut_self]
    exact mem_cacheKeys_cachePut_of_mem _ r h
  · rw [installAssetStep_of_not_addOk s (by simpa using hok)]
    exact h

theorem mem_assetKeys_installAssetStep_self {env : Env} {origin p : String}
    (s : CacheStorage) (h : addOk env (Url.mk origin p) = true) :
    Url.mk origin p ∈ assetKeys (installAssetStep env origin s p) := by
  obtain ⟨r, _, _, hstep⟩ := installAssetStep_of_addOk s h
  rw [hstep]
  unfold assetKeys
  rw [storesGet_storagePut_self]
  exact mem_cacheKeys_cachePut_self _ _ r

theorem installAssetStep_keys_of_mem {env : Env} {origin p : String} {s : CacheStorage}
    (h : addOk env (Url.mk origin p) = true → Url.mk origin p ∈ assetKeys s) :
    storageKeys (installAssetStep env origin s p) = storageKeys s ∧
    assetKeys (installAssetStep env origin s p) = assetKeys s := by
  by_cases hok : addOk env (Url.mk origin p) = true
  · obtain ⟨r, _, _, hstep⟩ := installAssetStep_of_addOk s hok
    rw [hstep]
    constructor
    · exact storageKeys_storagePut_of_mem r (h hok)
    · unfold assetKeys
      rw [storesGet_storagePut_self]
      exact cachePut_keys_of_mem r (h hok)
  · rw [installAssetStep_of_not_addOk s (by simpa using hok)]
    exact ⟨rfl, rfl⟩

theorem seedList_cons (env : Env) (origin : String) (s : CacheStorage)
    (p : String) (ps : List String) :
    seedList env origin s (p :: ps) = seedList env origin (installAssetStep env origin s p) ps :=
  rfl

theorem mem_assetKeys_seedList_of_mem {env : Env} {origin : String} {v : Url} :
    ∀ (ps : List String) (s : CacheStorage), v ∈ assetKeys s →
      v ∈ assetKeys (seedList env origin s ps)
  | [], _, h => h
  | p :: ps, s, h =>
      mem_assetKeys_seedList_of_mem ps (installAssetStep env origin s p)
        (mem_assetKeys_installAssetStep p h)

theorem mem_assetKeys_seedList {env : Env} {origin : String} :
    ∀ (ps : List String) (s : CacheStorage) (p : String), p ∈ ps →
      addOk env (Url.mk origin p) = true →
      Url.mk origin p ∈ assetKeys (seedList env origin s ps)
  | [], _, p, hp, _ => absurd hp (List.not_mem_nil p)
  | q :: ps, s, p, hp, hok => by
      rcases List.mem_cons.mp hp with h1 | h2
      · subst h1
        exact mem_assetKeys_seedList_of_mem ps _ (mem_assetKeys_installAssetStep_self s hok)
      · exact mem_assetKeys_seedList ps _ p h2 hok

theorem storageKeys_seedList_of_mem {env : Env} {origin : String} :
    ∀ (ps : List String) (s : CacheStorage),
      (∀ p, p ∈ ps → addOk env (Url.mk origin p) = true → Url.mk origin p ∈ assetKeys s) →
      storageKeys (seedList env origin s ps) = storageKeys s
  | [], _, _ => rfl
  | q :: ps, s, h => by
      obtain ⟨hsk, hak⟩ :=
        installAssetStep_keys_of_mem (p := q) (h q (List.mem_cons.mpr (Or.inl rfl)))
      rw [seedList_cons]
      rw [storageKeys_seedList_of_mem ps _ (fun p hp hok => by
        rw [hak]
        exact h p (List.mem_cons.mpr (Or.inr hp)) hok)]
      exact hsk

theorem assetKeys_seedList_of_disjoint {env : Env} {origin : String} :
    ∀ (ps : List String) (s : CacheStorage), ps.Nodup →
      (∀ p, p ∈ ps → Url.mk origin p ∉ assetKeys s) →
      assetKeys (seedList env origin s ps)
        = assetKeys s
          ++ (ps.filter (fun p => addOk env (Url.mk origin p))).map (Url.mk origin)
  | [], s, _, _ => by simp [seedList]
  | q :: ps, s, hnd, hdisj => by
      have hndps : ps.Nodup := (List.nodup_cons.mp hnd).2
      have hqnot : q ∉ ps := (List.nodup_cons.mp hnd).1
      rw [seedList_cons]
      by_cases hok : addOk env (Url.mk origin q) = true
      · obtain ⟨r, _, _, hstep⟩ := installAssetStep_of_addOk s hok
        have hkeys : assetKeys (installAssetStep env origin s q)
            = assetKeys s ++ [Url.mk origin q] := by
          rw [hstep]
          unfold assetKeys
          rw [storesGet_storagePut_self]
          exact cachePut_keys_of_not_mem r (hdisj q (List.mem_cons.mpr (Or.inl rfl)))
        have hdisj2 : ∀ p, p ∈ ps →
            Url.mk origin p ∉ assetKeys (installAssetStep env origin s q) := by
          intro p hp hmem
          rw [hkeys] at hmem
          rcases List.mem_append.mp hmem with h1 | h2
          · exact hdisj p (List.mem_cons.mpr (Or.inr hp)) h1
          · have heq : Url.mk origin p = Url.mk origin q := List.mem_singleton.mp h2
            rw [Url.mk.injEq] at heq
            exact hqnot (heq.2 ▸ hp)
        have hfq : List.filter (fun p => addOk env (Url.mk origin p)) (q :: ps)
            = q :: List.filter (fun p => addOk env (Url.mk origin p)) ps :=
          List.filter_cons_of_pos hok
        rw [assetKeys_seedList_of_disjoint ps _ hndps hdisj2, hkeys, hfq, List.map_cons]
        simp [List.append_assoc]
      · have hstep := installAssetStep_of_not_addOk s (by simpa using hok)
        have hfq : List.filter (fun p => addOk env (Url.mk origin p)) (q :: ps)
            = List.filter (fun p => addOk env (Url.mk origin p)) ps :=
          List.filter_cons_of_neg (by simpa using hok)
        rw [hstep, assetKeys_seedList_of_disjoint ps s hndps
          (fun p hp => hdisj p (List.mem_cons.mpr (Or.inr hp))), hfq]

theorem storesGet_seedList_other {env : Env} {origin m : String}
    (hm : m ≠ ASSET_CACHE_NAME) :
    ∀ (ps : List String) (s : CacheStorage),
      storesGet (seedList env origin s ps) m = storesGet s m
  | [], _ => rfl
  | q :: ps, s => by
      rw [seedList_cons, storesGet_seedList_other hm ps]
      by_cases hok : addOk env (Url.mk origin q) = true
      · obtain ⟨r, _, _, hstep⟩ := installAssetStep_of_addOk s hok
        rw [hstep]
        exact storesGet_storagePut_other s _ r hm
      · rw [installAssetStep_of_not_addOk s (by simpa using hok)]

theorem mem_storageNames_seedList {env : Env} {origin m : String} :
    ∀ (ps : List String) (s : CacheStorage), m ∈ storageNames s →
      m ∈ storageNames (seedList env origin s ps)
  | [], _, h => h
  | q :: ps, s, h => by
      rw [seedList_cons]
      refine mem_storageNames_seedList ps _ ?_
      by_cases hok : addOk env (Url.mk origin q) = true
      · obtain ⟨r, _, _, hstep⟩ := installAssetStep_of_addOk s hok
        rw [hstep]
        exact mem_storageNames_storesSet _ _ h
      · rw [installAssetStep_of_not_addOk s (by simpa using hok)]
        exact h

theorem okWritesOnly_refl (s : CacheStorage) : okWritesOnly s s :=
  fun _ _ _ h => Or.inl h

theorem okWritesOnly_trans {s t v : CacheStorage} (h1 : okWritesOnly s t)
    (h2 : okWritesOnly t v) : okWritesOnly s v := by
  intro n u r hm
  rcases h2 n u r hm with h | h
  · exact h1 n u r h
  · exact Or.inr h

theorem okWritesOnly_cachesOpen (s : CacheStorage) (n : String) :
    okWritesOnly s (cachesOpen s n) := by
  intro m u r hm
  rw [storesGet_cachesOpen] at hm
  exact Or.inl hm

theorem okWritesOnly_storagePut {r : Response} (s : CacheStorage) (n : String) (u : Url)
    (h : r.ok = true) : okWritesOnly s (storagePut s n u r) := by
  intro m v rr hm
  by_cases hmn : m = n
  · subst hmn
    rw [storesGet_storagePut_self] at hm
    rcases mem_of_mem_cachePut hm with h1 | h2
    · exact Or.inl h1
    · right
      injection h2 with h3 h4
      rw [h4]
      exact h
  · rw [storesGet_storagePut_other s u r hmn] at hm
    exact Or.inl hm

theorem okWritesOnly_foldl {f : CacheStorage → String → CacheStorage}
    (hf : ∀ t p, okWritesOnly t (f t p)) :
    ∀ (ps : List String) (s : CacheStorage), okWritesOnly s (List.foldl f s ps)
  | [], s => okWritesOnly_refl s
  | p :: ps, s => okWritesOnly_trans (hf s p) (okWritesOnly_foldl hf ps (f s p))

theorem okWritesOnly_retryStep (env : Env) (origin : String) (t : CacheStorage)
    (p : String) : okWritesOnly t (retryStep env origin t p) := by
  unfold retryStep
  rcases hm : cacheMatch (storesGet t ASSET_CACHE_NAME) (Url.mk origin p) with _ | c
  · rcases hf : env.fetch (Url.mk origin p) with _ | r
    · exact okWritesOnly_refl t
    · cases hro : r.ok
      · simp only [hro, Bool.false_eq_true, if_false]
        exact okWritesOnly_refl t
      · simp only [hro, if_true]
        exact okWritesOnly_storagePut t _ _ hro
  · exact okWritesOnly_refl t

theorem okWritesOnly_retryFailedAssets (env : Env) (origin : String) (s : CacheStorage) :
    okWritesOnly s (retryFailedAssets env origin s) :=
  okWritesOnly_trans (okWritesOnly_cachesOpen s ASSET_CACHE_NAME)
    (okWritesOnly_foldl (fun t p => okWritesOnly_retryStep env origin t p)
      CRITICAL_ASSETS (cachesOpen s ASSET_CACHE_NAME))

theorem cachesMatch_isSome_of_store_hit {s : CacheStorage} {n : String} {u : Url}
    {c : Response} (h : cacheMatch (storesGet s n) u = some c) :
    (cachesMatch s u).isSome = true := by
  induction s with
  | nil => simp [storesGet, storesFind, cacheMatch] at h
  | cons e rest ih =>
      by_cases he : e.1 = n
      · have hg : storesGet (e :: rest) n = e.2 := by
          simp [storesGet, storesFind, he]
        rw [hg] at h
        simp [cachesMatch, h]
      · have hg : storesGet (e :: rest) n = storesGet rest n := by
          simp [storesGet, storesFind, he]
        rw [hg] at h
        rcases hm : cacheMatch e.2 u with _ | c2
        · simp only [cachesMatch, hm]
          exact ih h
        · simp [cachesMatch, hm]

theorem cacheAddAll_singleton_of_addOk {env : Env} {u : Url} (c : Cache)
    (h : addOk env u = true) :
    ∃ r, env.fetch u = some r ∧ r.ok = true ∧
      cacheAddAll env c [u] = Except.ok (cachePut c u r) := by
  unfold addOk at h
  rcases hf : env.fetch u with _ | r
  · rw [hf] at h; cases h
  · rw [hf] at h
    have hok : r.ok = true := by simpa using h
    exact ⟨r, rfl, hok, by simp [cacheAddAll, fetchAllOk, hf, hok]⟩

theorem cacheAddAll_singleton_of_not_addOk {env : Env} {u : Url} (c : Cache)
    (h : addOk env u = false) :
    cacheAddAll env c [u] = Except.error "addAll failed" := by
  unfold addOk at h
  rcases hf : env.fetch u with _ | r
  · simp [cacheAddAll, fetchAllOk, hf]
  · rw [hf] at h
    have hok : r.ok = false := by simpa using h
    simp [cacheAddAll, fetchAllOk, hf, hok]

theorem mem_storageNames_cachesOpen_self (s : CacheStorage) (n : String) :
    n ∈ storageNames (cachesOpen s n) := by
  by_cases h : n ∈ storageNames s
  · rw [cachesOpen_of_mem h]; exact h
  · rw [storageNames_cachesOpen_of_not_mem h]
    exact List.mem_append.mpr (Or.inr (List.mem_singleton.mpr rfl))

theorem mem_storageNames_cachesOpen_of_mem {s : CacheStorage} {m : String} (n : String)
    (h : m ∈ storageNames s) : m ∈ storageNames (cachesOpen s n) := by
  by_cases h2 : n ∈ storageNames s
  · rw [cachesOpen_of_mem h2]; exact h
  · rw [storageNames_cachesOpen_of_not_mem h2]
    exact List.mem_append.mpr (Or.inl h)

theorem install_snd (env : Env) (origin : String) (s : CacheStorage) :
    ∃ t, (install env origin s).2 = seedList env origin t CRITICAL_ASSETS ∧
      ASSET_CACHE_NAME ∈ storageNames t ∧ CACHE_NAME ∈ storageNames t := by
  unfold install
  rcases hres : cacheAddAll env (storesGet (cachesOpen s CACHE_NAME) CACHE_NAME)
      [Url.mk origin "/"] with e | c
  · simp only [hres]
    exact ⟨_, rfl, mem_storageNames_cachesOpen_self _ _,
      mem_storageNames_cachesOpen_of_mem _ (mem_storageNames_cachesOpen_self s CACHE_NAME)⟩
  · simp only [hres]
    exact ⟨_, rfl, mem_storageNames_cachesOpen_self _ _,
      mem_storageNames_cachesOpen_of_mem _
        (mem_storageNames_storesSet _ _ (mem_storageNames_cachesOpen_self s CACHE_NAME))⟩

theorem install_fst_iff (env : Env) (origin : String) (s : CacheStorage) :
    (install env origin s).1 = Except.ok () ↔ addOk env (Url.mk origin "/") = true := by
  by_cases h : addOk env (Url.mk origin "/") = true
  · obtain ⟨r, hf, hro, hall⟩ :=
      cacheAddAll_singleton_of_addOk (storesGet (cachesOpen s CACHE_NAME) CACHE_NAME) h
    unfold install
    simp only [hall]
    simp [h]
  · have hall := cacheAddAll_singleton_of_not_addOk
      (storesGet (cachesOpen s CACHE_NAME) CACHE_NAME) (by simpa using h)
    unfold install
    simp only [hall]
    simp [h]

theorem install_empty_rootOk {env : Env} {origin : String} {r : Response}
    (hf : env.fetch (Url.mk origin "/") = some r) (hro : r.ok = true) :
    (install env origin emptyStorage).2
      = seedList env origin
          [(CACHE_NAME, [(Url.mk origin "/", r)]), (ASSET_CACHE_NAME, [])]
          CRITICAL_ASSETS := by
  have hok : addOk env (Url.mk origin "/") = true := by
    unfold addOk
    rw [hf]
    exact hro
  obtain ⟨r2, hf2, hro2, hall⟩ := cacheAddAll_singleton_of_addOk
    (storesGet (cachesOpen emptyStorage CACHE_NAME) CACHE_NAME) hok
  rw [hf] at hf2
  have hr2 : r2 = r := (Option.some.inj hf2).symm
  subst hr2
  have hT : cachesOpen (storesSet (cachesOpen emptyStorage CACHE_NAME) CACHE_NAME
        (cachePut (storesGet (cachesOpen emptyStorage CACHE_NAME) CACHE_NAME)
          (Url.mk origin "/") r2))
        ASSET_CACHE_NAME
      = [(CACHE_NAME, [(Url.mk origin "/", r2)]), (ASSET_CACHE_NAME, [])] := by
    simp [cachesOpen, storesFind, storesSet, storesGet, cachePut, emptyStorage,
      CACHE_NAME, ASSET_CACHE_NAME]
  unfold install
  simp only [hall]
  rw [hT]

theorem install_empty_rootFail {env : Env} {origin : String}
    (h : addOk env (Url.mk origin "/") = false) :
    (install env origin emptyStorage).2
      = seedList env origin [(CACHE_NAME, []), (ASSET_CACHE_NAME, [])] CRITICAL_ASSETS := by
  have hall := cacheAddAll_singleton_of_not_addOk
    (storesGet (cachesOpen emptyStorage CACHE_NAME) CACHE_NAME) h
  have hT : cachesOpen (cachesOpen emptyStorage CACHE_NAME) ASSET_CACHE_NAME
      = [(CACHE_NAME, []), (ASSET_CACHE_NAME, [])] := by
    simp [cachesOpen, storesFind, emptyStorage, CACHE_NAME, ASSET_CACHE_NAME]
  unfold install
  simp only [hall]
  rw [hT]

theorem assetKeys_install_empty (env : Env) (origin : String) :
    assetKeys (install env origin emptyStorage).2
      = (CRITICAL_ASSETS.filter (fun p => addOk env (Url.mk origin p))).map (Url.mk origin) := by
  have hnd : CRITICAL_ASSETS.Nodup := by decide
  by_cases h : addOk env (Url.mk origin "/") = true
  · obtain ⟨r, hf, hro⟩ : ∃ r, env.fetch (Url.mk origin "/") = some r ∧ r.ok = true := by
      unfold addOk at h
      rcases hf : env.fetch (Url.mk origin "/") with _ | r
      · rw [hf] at h; cases h
      · rw [hf] at h
        exact ⟨r, rfl, by simpa using h⟩
    rw [install_empty_rootOk hf hro]
    have hdisj : ∀ p, p ∈ CRITICAL_ASSETS → Url.mk origin p ∉
        assetKeys [(CACHE_NAME, [(Url.mk origin "/", r)]), (ASSET_CACHE_NAME, [])] := by
      intro p hp
      simp [assetKeys, storesGet, storesFind, cacheKeys, CACHE_NAME, ASSET_CACHE_NAME]
    rw [assetKeys_seedList_of_disjoint CRITICAL_ASSETS _ hnd hdisj]
    simp [assetKeys, storesGet, storesFind, cacheKeys, CACHE_NAME, ASSET_CACHE_NAME]
  · rw [install_empty_rootFail (by simpa using h)]
    have hdisj : ∀ p, p ∈ CRITICAL_ASSETS → Url.mk origin p ∉
        assetKeys [(CACHE_NAME, []), (ASSET_CACHE_NAME, [])] := by
      intro p hp
      simp [assetKeys, storesGet, storesFind, cacheKeys, CACHE_NAME, ASSET_CACHE_NAME]
    rw [assetKeys_seedList_of_disjoint CRITICAL_ASSETS _ hnd hdisj]
    simp [assetKeys, storesGet, storesFind, cacheKeys, CACHE_NAME, ASSET_CACHE_NAME]

theorem storageKeys_install_second {env : Env} {origin : String} {S1 : CacheStorage}
    (hA1 : ASSET_CACHE_NAME ∈ storageNames S1)
    (hC1 : CACHE_NAME ∈ storageNames S1)
    (hpresent : ∀ p, p ∈ CRITICAL_ASSETS → addOk env (Url.mk origin p) = true →
      Url.mk origin p ∈ assetKeys S1)
    (hshell : ∀ r, env.fetch (Url.mk origin "/") = some r → r.ok = true →
      storesGet S1 CACHE_NAME = [(Url.mk origin "/", r)]) :
    storageKeys (install env origin S1).2 = storageKeys S1 := by
  have hopenC : cachesOpen S1 CACHE_NAME = S1 := cachesOpen_of_mem hC1
  have hopenA : cachesOpen S1 ASSET_CACHE_NAME = S1 := cachesOpen_of_mem hA1
  by_cases hok : addOk env (Url.mk origin "/") = true
  · obtain ⟨r, hf, hro⟩ : ∃ r, env.fetch (Url.mk origin "/") = some r ∧ r.ok = true := by
      unfold addOk at hok
      rcases hf : env.fetch (Url.mk origin "/") with _ | r
      · rw [hf] at hok; cases hok
      · rw [hf] at hok
        exact ⟨r, rfl, by simpa using hok⟩
    have hsc := hshell r hf hro
    obtain ⟨r2, hf2, hro2, hall2⟩ := cacheAddAll_singleton_of_addOk
      (storesGet (cachesOpen S1 CACHE_NAME) CACHE_NAME) hok
    rw [hf] at hf2
    have hr2 : r2 = r := (Option.some.inj hf2).symm
    subst hr2
    have hcput : cachePut (storesGet (cachesOpen S1 CACHE_NAME) CACHE_NAME)
        (Url.mk origin "/") r2 = storesGet S1 CACHE_NAME := by
      rw [hopenC, hsc]
      simp [cachePut]
    unfold install
    simp only [hall2]
    rw [hcput, hopenC, storesSet_storesGet_self hC1, hopenA]
    exact storageKeys_seedList_of_mem CRITICAL_ASSETS S1 hpresent
  · have hall2 := cacheAddAll_singleton_of_not_addOk
      (storesGet (cachesOpen S1 CACHE_NAME) CACHE_NAME) (by simpa using hok)
    unfold install
    simp only [hall2]
    rw [hopenC, hopenA]
    exact storageKeys_seedList_of_mem CRITICAL_ASSETS S1 hpresent

/-- Claim C1 counterexample: a GET request to a different origin with a
non-asset path is intercepted and routed to the network-first app handler
rather than being passed through to default browser handling, because the
fetch listener never inspects the request origin. -/
theorem c1_cross_origin_get_intercepted :
    route { method := "GET", url := { origin := "https://fonts.example", pathname := "/css" } }
        = RouteDecision.app ∧
    (handleFetch envAllOk emptyStorage
        { method := "GET",
          url := { origin := "https://fonts.example", pathname := "/css" } }).1.isSome
        = true ∧
    ({ origin := "https://fonts.example", pathname := "/css" } : Url).origin ≠ demoOrigin :=
  ⟨by decide, by decide, by decide⟩

/-- Claim C1 (amended): the fetch listener classifies only by path prefix
and HTTP method — a request whose URL path begins with "/assets/" is
handled by the cache-first asset handler regardless of method or origin;
any other GET request, regardless of origin, is handled by the
network-first app handler; and only non-GET requests to non-asset paths
are not intercepted and fall through to default browser handling. -/
theorem c1_request_routing (env : Env) (s : CacheStorage) (r : Request) :
    (strStartsWith r.url.pathname "/assets/" = true →
      route r = RouteDecision.asset ∧
      handleFetch env s r
        = (some (handleAssetRequest env s r).1, (handleAssetRequest env s r).2)) ∧
    (strStartsWith r.url.pathname "/assets/" = false → r.method = "GET" →
      route r = RouteDecision.app ∧
      handleFetch env s r
        = (some (handleAppRequest env s r).1, (handleAppRequest env s r).2)) ∧
    (strStartsWith r.url.pathname "/assets/" = false → r.method ≠ "GET" →
      route r = RouteDecision.passThrough ∧
      handleFetch env s r = (none, s, [])) := by
  refine ⟨fun h => ⟨?_, ?_⟩, fun h hm => ⟨?_, ?_⟩, fun h hm => ⟨?_, ?_⟩⟩
  · simp [route, h]
  · simp [handleFetch, h]
  · simp [route, h, hm]
  · simp [handleFetch, h, hm]
  · simp [route, h, hm]
  · simp [handleFetch, h, hm]

/-- Claim C1 witness: the routing theorem instantiated at a GET asset
request, a cross-origin GET page request, and a POST request, with every
hypothesis discharged by computation. -/
theorem c1_request_routing_witness :
    route { method := "GET", url := { origin := demoOrigin, pathname := "/assets/x.png" } }
        = RouteDecision.asset ∧
    route { method := "GET", url := { origin := "https://other.example", pathname := "/page" } }
        = RouteDecision.app ∧
    route { method := "POST", url := { origin := demoOrigin, pathname := "/api" } }
        = RouteDecision.passThrough ∧
    handleFetch envAllOk emptyStorage
        { method := "POST", url := { origin := demoOrigin, pathname := "/api" } }
      = (none, emptyStorage, []) :=
  ⟨((c1_request_routing envAllOk emptyStorage _).1 (by decide)).1,
   ((c1_request_routing envAllOk emptyStorage _).2.1 (by decide) (by decide)).1,
   ((c1_request_routing envAllOk emptyStorage _).2.2 (by decide) (by decide)).1,
   ((c1_request_routing envAllOk emptyStorage _).2.2 (by decide) (by decide)).2⟩

/-- Claim C2 counterexample: a GET_CACHE_STATUS message carrying no reply
port makes the handler fail while posting to the missing first port; the
failure is caught nowhere in the message listener and escapes it. -/
theorem c2_status_no_port_uncaught :
    (handleMessage envDown demoOrigin emptyStorage
        { type := "GET_CACHE_STATUS", payloadUrl := none } 0).1
      = Except.error "TypeError: no reply port" := by
  decide

/-- Claim C2 (amended): only CACHE_ASSET handling catches its failures —
for every network environment and state a CACHE_ASSET message with a url
payload never propagates an error out of the message listener (cacheAsset
catches and logs internally), whereas GET_CACHE_STATUS handling is not
wrapped in any catch: with no reply port it propagates an error, and with
a reply port it posts the status snapshot. -/
theorem c2_message_error_handling (env : Env) (origin : String) (s : CacheStorage)
    (url : String) (ports : Nat) :
    (handleMessage env origin s { type := "CACHE_ASSET", payloadUrl := some url } ports).1
        = Except.ok none ∧
    (handleMessage env origin s { type := "GET_CACHE_STATUS", payloadUrl := none } 0).1
        = Except.error "TypeError: no reply port" ∧
    (ports ≠ 0 →
      (handleMessage env origin s { type := "GET_CACHE_STATUS", payloadUrl := none } ports).1
        = Except.ok (some (getCacheStatus env s).1)) := by
  refine ⟨?_, ?_, fun hp => ?_⟩
  · simp [handleMessage]
  · simp [handleMessage]
  · simp [handleMessage, hp]

/-- Claim C2 witness: a GET_CACHE_STATUS message with one reply port is
answered with the status snapshot. -/
theorem c2_message_error_handling_witness :
    (handleMessage envDown demoOrigin emptyStorage
        { type := "GET_CACHE_STATUS", payloadUrl := none } 1).1
      = Except.ok (some (getCacheStatus envDown emptyStorage).1) :=
  (c2_message_error_handling envDown demoOrigin emptyStorage "" 1).2.2 (by decide)

/-- Claim C3 counterexample: a GET request for the non-root path "/about/"
under a failed network and an empty cache receives the synthetic offline
page — its URL ends with a slash, so the code root-document test accepts
it — instead of the propagated error the claim requires for non-root
paths. -/
theorem c3_trailing_slash_offline_page :
    handleAppRequest envDown emptyStorage
        { method := "GET", url := { origin := demoOrigin, pathname := "/about/" } }
      = (Except.ok offlineResponse, emptyStorage,
          [{ origin := demoOrigin, pathname := "/about/" }]) ∧
    ({ origin := demoOrigin, pathname := "/about/" } : Url).pathname ≠ "/" ∧
    ({ origin := demoOrigin, pathname := "/about/" } : Url).pathname ≠ "/index.html" :=
  ⟨by decide, by decide, by decide⟩

/-- Claim C3 (amended): fallback ordering of the network-first handler —
on network failure a cache hit is returned; on cache miss the synthetic
offline page is returned exactly when the URL passes the code
root-document test (URL ends with "/" or contains "index.html", which also
accepts non-root directory-style URLs); the error propagates only for URLs
failing that test. -/
theorem c3_document_fallback_order (env : Env) (s : CacheStorage) (r : Request)
    (hf : env.fetch r.url = none) :
    (∀ c, cachesMatch s r.url = some c →
      handleAppRequest env s r = (Except.ok c, s, [r.url])) ∧
    (cachesMatch s r.url = none → isRootDocumentUrl r = true →
      handleAppRequest env s r = (Except.ok offlineResponse, s, [r.url])) ∧
    (cachesMatch s r.url = none → isRootDocumentUrl r = false →
      handleAppRequest env s r = (Except.error "app request failed", s, [r.url])) := by
  refine ⟨fun c hc => ?_, fun hm hroot => ?_, fun hm hroot => ?_⟩
  · simp [handleAppRequest, hf, hc]
  · simp [handleAppRequest, hf, hm, hroot]
  · simp [handleAppRequest, hf, hm, hroot]

/-- Claim C3 witness: the fallback theorem instantiated at a cached root
document, an uncached root document, and an uncached plain path, under a
failed network. -/
theorem c3_document_fallback_order_witness :
    handleAppRequest envDown [(CACHE_NAME, [(Url.mk demoOrigin "/", okResp)])]
        { method := "GET", url := Url.mk demoOrigin "/" }
      = (Except.ok okResp, [(CACHE_NAME, [(Url.mk demoOrigin "/", okResp)])],
          [Url.mk demoOrigin "/"]) ∧
    handleAppRequest envDown emptyStorage { method := "GET", url := Url.mk demoOrigin "/" }
      = (Except.ok offlineResponse, emptyStorage, [Url.mk demoOrigin "/"]) ∧
    handleAppRequest envDown emptyStorage
        { method := "GET", url := Url.mk demoOrigin "/contact" }
      = (Except.error "app request failed", emptyStorage, [Url.mk demoOrigin "/contact"]) :=
  ⟨(c3_document_fallback_order envDown _ _ (by decide)).1 okResp (by decide),
   (c3_document_fallback_order envDown _ _ (by decide)).2.1 (by decide) (by decide),
   (c3_document_fallback_order envDown _ _ (by decide)).2.2 (by decide) (by decide)⟩

/-- Claim C4 counterexample: in a network where exactly the critical-asset
entry "/" fails to fetch and every other entry succeeds, the install step
rejects — the shell-store addAll of "/" is not isolated — even though every
other entry is cached, contradicting the claim that install never rejects
when one entry fails. -/
theorem c4_root_failure_rejects_install :
    addOk envRootFail (Url.mk demoOrigin "/") = false ∧
    CRITICAL_ASSETS.all
        (fun p => p == "/" || addOk envRootFail (Url.mk demoOrigin p)) = true ∧
    (install envRootFail demoOrigin emptyStorage).1 = Except.error "addAll failed" ∧
    CRITICAL_ASSETS.all (fun p => p == "/" ||
        decide (Url.mk demoOrigin p
          ∈ assetKeys (install envRootFail demoOrigin emptyStorage).2)) = true :=
  ⟨by decide, by decide, by decide, by decide⟩

/-- Claim C4 (amended): partial install resilience holds for the asset
store — every critical asset whose fetch resolves with an ok response is
present in the asset store after install, regardless of failures among
other entries — but the install step as a whole resolves if and only if
the root document "/" itself adds successfully, because the shell-store
addAll of "/" is not isolated. -/
theorem c4_install_isolation (env : Env) (origin : String) (s : CacheStorage) :
    (∀ p, p ∈ CRITICAL_ASSETS → addOk env (Url.mk origin p) = true →
      Url.mk origin p ∈ assetKeys (install env origin s).2) ∧
    ((install env origin s).1 = Except.ok () ↔ addOk env (Url.mk origin "/") = true) := by
  constructor
  · intro p hp hok
    obtain ⟨t, ht, _, _⟩ := install_snd env origin s
    rw [ht]
    exact mem_assetKeys_seedList CRITICAL_ASSETS t p hp hok
  · exact install_fst_iff env origin s

/-- Claim C4 witness: under an all-ok network, a concrete screenshot asset
is present after install and the install step resolves. -/
theorem c4_install_isolation_witness :
    Url.mk demoOrigin "/assets/portfolioSS.png"
        ∈ assetKeys (install envAllOk demoOrigin emptyStorage).2 ∧
    (install envAllOk demoOrigin emptyStorage).1 = Except.ok () :=
  ⟨(c4_install_isolation envAllOk demoOrigin emptyStorage).1 _ (by decide) (by decide),
   ((c4_install_isolation envAllOk demoOrigin emptyStorage).2).mpr (by decide)⟩

/-- Claim C5: cache-first never refetches on a hit — when the requested URL
is stored in the asset cache, the asset handler returns the response the
cache lookup finds, leaves the cache storage unchanged, and issues no
network fetch. -/
theorem c5_cache_first_hit (env : Env) (s : CacheStorage) (r : Request) (c : Response)
    (h : cacheMatch (storesGet s ASSET_CACHE_NAME) r.url = some c) :
    ∃ cached, cachesMatch s r.url = some cached ∧
      handleAssetRequest env s r = (Except.ok cached, s, []) := by
  obtain ⟨cached, hc⟩ := Option.isSome_iff_exists.mp (cachesMatch_isSome_of_store_hit h)
  exact ⟨cached, hc, by simp [handleAssetRequest, hc]⟩

/-- Claim C5 witness: a stored asset is served from the cache with no state
change and no fetch, even though the network is down. -/
theorem c5_cache_first_hit_witness :
    cachesMatch [(ASSET_CACHE_NAME, [(Url.mk demoOrigin "/assets/a.png", okResp)])]
        (Url.mk demoOrigin "/assets/a.png") = some okResp ∧
    handleAssetRequest envDown
        [(ASSET_CACHE_NAME, [(Url.mk demoOrigin "/assets/a.png", okResp)])]
        { method := "GET", url := Url.mk demoOrigin "/assets/a.png" }
      = (Except.ok okResp,
          [(ASSET_CACHE_NAME, [(Url.mk demoOrigin "/assets/a.png", okResp)])], []) := by
  obtain ⟨cached, h1, h2⟩ := c5_cache_first_hit envDown
    [(ASSET_CACHE_NAME, [(Url.mk demoOrigin "/assets/a.png", okResp)])]
    { method := "GET", url := Url.mk demoOrigin "/assets/a.png" } okResp (by decide)
  have hc : cachesMatch [(ASSET_CACHE_NAME, [(Url.mk demoOrigin "/assets/a.png", okResp)])]
      (Url.mk demoOrigin "/assets/a.png") = some okResp := by decide
  rw [hc] at h1
  cases Option.some.inj h1
  exact ⟨hc, h2⟩

theorem storageNames_filter (g : String × Cache → Bool) (f : String → Bool)
    (hgf : ∀ e, g e = f e.1) :
    ∀ s : CacheStorage, storageNames (s.filter g) = (storageNames s).filter f
  | [] => rfl
  | e :: rest => by
      cases hge : g e
      · have hfe : f e.1 = false := by rw [← hgf e]; exact hge
        rw [List.filter_cons_of_neg (by simp [hge]),
          show storageNames (e :: rest) = e.1 :: storageNames rest from rfl,
          List.filter_cons_of_neg (by simp [hfe])]
        exact storageNames_filter g f hgf rest
      · have hfe : f e.1 = true := by rw [← hgf e]; exact hge
        rw [List.filter_cons_of_pos hge,
          show storageNames (e :: List.filter g rest)
            = e.1 :: storageNames (List.filter g rest) from rfl,
          show storageNames (e :: rest) = e.1 :: storageNames rest from rfl,
          List.filter_cons_of_pos hfe, storageNames_filter g f hgf rest]

/-- Claim C6: version garbage collection — the activate step deletes every
cache whose name is neither the current shell-store name nor the current
asset-store name: the surviving name enumeration is the filter of the old
one by those two names, and when both current caches existed beforehand (as
after install) a name is enumerated after activation exactly when it is the
current shell or asset store name. -/
theorem c6_activate_gc (s : CacheStorage) :
    storageNames (activate s)
        = (storageNames s).filter (fun n => n == CACHE_NAME || n == ASSET_CACHE_NAME) ∧
    (CACHE_NAME ∈ storageNames s → ASSET_CACHE_NAME ∈ storageNames s →
      ∀ n, n ∈ storageNames (activate s) ↔ (n = CACHE_NAME ∨ n = ASSET_CACHE_NAME)) := by
  have hmap := storageNames_filter
    (fun e => e.1 == CACHE_NAME || e.1 == ASSET_CACHE_NAME)
    (fun n => n == CACHE_NAME || n == ASSET_CACHE_NAME) (fun e => rfl) s
  constructor
  · exact hmap
  · intro h1 h2 n
    constructor
    · intro hn
      rw [show storageNames (activate s)
          = (storageNames s).filter (fun n => n == CACHE_NAME || n == ASSET_CACHE_NAME)
        from hmap] at hn
      have hp := (List.mem_filter.mp hn).2
      simpa using hp
    · intro hor
      rw [show storageNames (activate s)
          = (storageNames s).filter (fun n => n == CACHE_NAME || n == ASSET_CACHE_NAME)
        from hmap]
      refine List.mem_filter.mpr ⟨?_, ?_⟩
      · rcases hor with h | h
        · rw [h]; exact h1
        · rw [h]; exact h2
      · rcases hor with h | h <;> simp [h]

/-- Claim C6 witness: the garbage-collection theorem applied to a storage
holding a prior-version cache next to both current caches — the old name
does not survive activation while the current shell name does. -/
theorem c6_activate_gc_witness :
    ("mported-portfolio-v0" ∈ storageNames (activate demoOldStorage)
        ↔ ("mported-portfolio-v0" = CACHE_NAME ∨ "mported-portfolio-v0" = ASSET_CACHE_NAME)) ∧
    (CACHE_NAME ∈ storageNames (activate demoOldStorage)
        ↔ (CACHE_NAME = CACHE_NAME ∨ CACHE_NAME = ASSET_CACHE_NAME)) :=
  ⟨(c6_activate_gc demoOldStorage).2 (by decide) (by decide) _,
   (c6_activate_gc demoOldStorage).2 (by decide) (by decide) _⟩

/-- Claim C7: status accuracy — after a fresh install from the empty cache
environment, GET_CACHE_STATUS reports totalAssets equal to the length of
CRITICAL_ASSETS and cachedAssets equal to the number of critical-asset
entries whose install-time add succeeded. -/
theorem c7_status_accuracy (env : Env) (origin : String) :
    (getCacheStatus env (install env origin emptyStorage).2).1.totalAssets
        = CRITICAL_ASSETS.length ∧
    (getCacheStatus env (install env origin emptyStorage).2).1.cachedAssets
        = (CRITICAL_ASSETS.filter (fun p => addOk env (Url.mk origin p))).length := by
  constructor
  · rfl
  · show (cacheKeys (storesGet
        (cachesOpen (install env origin emptyStorage).2 ASSET_CACHE_NAME)
        ASSET_CACHE_NAME)).length = _
    rw [storesGet_cachesOpen]
    show (assetKeys (install env origin emptyStorage).2).length = _
    rw [assetKeys_install_empty]
    exact List.length_map _ _

/-- Claim C8: idempotent install — under any fixed (deterministic) network
environment, running the install step a second time on the state produced
by a first install from the empty cache environment leaves the cached key
set of every store (shell and asset alike) unchanged. -/
theorem c8_install_idempotent (env : Env) (origin : String) :
    storageKeys (install env origin (install env origin emptyStorage).2).2
      = storageKeys (install env origin emptyStorage).2 := by
  obtain ⟨t, ht, hAt, hCt⟩ := install_snd env origin emptyStorage
  have hCA : CACHE_NAME ≠ ASSET_CACHE_NAME := by decide
  refine storageKeys_install_second ?_ ?_ ?_ ?_
  · rw [ht]
    exact mem_storageNames_seedList CRITICAL_ASSETS t hAt
  · rw [ht]
    exact mem_storageNames_seedList CRITICAL_ASSETS t hCt
  · intro p hp hok
    rw [ht]
    exact mem_assetKeys_seedList CRITICAL_ASSETS t p hp hok
  · intro r hf hro
    rw [install_empty_rootOk hf hro, storesGet_seedList_other hCA CRITICAL_ASSETS]
    simp [storesGet, storesFind, CACHE_NAME, ASSET_CACHE_NAME]

/-- Claim C9: a control message whose type is none of CACHE_ASSET,
CLEAR_CACHE, GET_CACHE_STATUS — such as the SKIP_WAITING message the
page-side registration helper sends — matches no case of the dispatcher:
the cache storage is unchanged and no reply is posted on any port. -/
theorem c9_unknown_message_noop (env : Env) (origin : String) (s : CacheStorage)
    (msg : ControlMessage) (ports : Nat)
    (h1 : msg.type ≠ "CACHE_ASSET") (h2 : msg.type ≠ "CLEAR_CACHE")
    (h3 : msg.type ≠ "GET_CACHE_STATUS") :
    handleMessage env origin s msg ports = (Except.ok none, s) := by
  simp [handleMessage, h1, h2, h3]

/-- Claim C9 witness: the SKIP_WAITING message actually sent by the page
helper is ignored: state unchanged, no reply. -/
theorem c9_unknown_message_noop_witness :
    handleMessage envAllOk demoOrigin emptyStorage
        { type := "SKIP_WAITING", payloadUrl := none } 0
      = (Except.ok none, emptyStorage) :=
  c9_unknown_message_noop envAllOk demoOrigin emptyStorage
    { type := "SKIP_WAITING", payloadUrl := none } 0
    (by decide) (by decide) (by decide)

/-- Claim C10: only ok responses are ever written by the runtime handlers —
after the cache-first asset handler, the network-first app handler, or the
retry sweep, every cache entry is an entry of the initial storage or has ok
status; and on the failure paths that return a synthetic response (image
placeholder, offline page) the handler returns the cache storage unchanged,
so synthetic responses are never cached. -/
theorem c10_ok_writes_only (env : Env) (origin : String) (s : CacheStorage) (r : Request) :
    okWritesOnly s (handleAssetRequest env s r).2.1 ∧
    okWritesOnly s (handleAppRequest env s r).2.1 ∧
    okWritesOnly s (retryFailedAssets env origin s) ∧
    (cachesMatch s r.url = none → env.fetch r.url = none → isImageUrl r.url.href = true →
      handleAssetRequest env s r = (Except.ok placeholderResponse, s, [r.url])) ∧
    (env.fetch r.url = none → cachesMatch s r.url = none → isRootDocumentUrl r = true →
      handleAppRequest env s r = (Except.ok offlineResponse, s, [r.url])) := by
  refine ⟨?_, ?_, okWritesOnly_retryFailedAssets env origin s, ?_, ?_⟩
  · rcases hm : cachesMatch s r.url with _ | cached
    · rcases hf : env.fetch r.url with _ | nr
      · cases hi : isImageUrl r.url.href
        · simp [handleAssetRequest, hm, hf, hi]
          exact okWritesOnly_refl s
        · simp [handleAssetRequest, hm, hf, hi]
          exact okWritesOnly_refl s
      · cases ho : nr.ok
        · simp [handleAssetRequest, hm, hf, ho]
          exact okWritesOnly_refl s
        · simp [handleAssetRequest, hm, hf, ho]
          exact okWritesOnly_trans (okWritesOnly_cachesOpen s ASSET_CACHE_NAME)
            (okWritesOnly_storagePut _ _ _ ho)
    · simp [handleAssetRequest, hm]
      exact okWritesOnly_refl s
  · rcases hf : env.fetch r.url with _ | nr
    · rcases hm : cachesMatch s r.url with _ | cached
      · cases hroot : isRootDocumentUrl r
        · simp [handleAppRequest, hf, hm, hroot]
          exact okWritesOnly_refl s
        · simp [handleAppRequest, hf, hm, hroot]
          exact okWritesOnly_refl s
      · simp [handleAppRequest, hf, hm]
        exact okWritesOnly_refl s
    · cases ho : nr.ok
      · simp [handleAppRequest, hf, ho]
        exact okWritesOnly_refl s
      · simp [handleAppRequest, hf, ho]
        exact okWritesOnly_trans (okWritesOnly_cachesOpen s CACHE_NAME)
          (okWritesOnly_storagePut _ _ _ ho)
  · intro hm hf hi
    simp [handleAssetRequest, hm, hf, hi]
  · intro hf hm hroot
    simp [handleAppRequest, hf, hm, hroot]

/-- Claim C10 witness: under a failed network the asset handler returns the
placeholder for an image URL and the app handler returns the offline page
for the root URL, both leaving the empty storage unchanged. -/
theorem c10_ok_writes_only_witness :
    handleAssetRequest envDown emptyStorage
        { method := "GET", url := Url.mk demoOrigin "/assets/a.png" }
      = (Except.ok placeholderResponse, emptyStorage,
          [Url.mk demoOrigin "/assets/a.png"]) ∧
    handleAppRequest envDown emptyStorage { method := "GET", url := Url.mk demoOrigin "/" }
      = (Except.ok offlineResponse, emptyStorage, [Url.mk demoOrigin "/"]) :=
  ⟨(c10_ok_writes_only envDown demoOrigin emptyStorage
      { method := "GET", url := Url.mk demoOrigin "/assets/a.png" }).2.2.2.1
      (by decide) (by decide) (by decide),
   (c10_ok_writes_only envDown demoOrigin emptyStorage
      { method := "GET", url := Url.mk demoOrigin "/" }).2.2.2.2
      (by decide) (by decide) (by decide)⟩

end SW
